import Mathlib

/-!
# Parcel store

A shallow embedding of `parcel.go`: the six methods of `ParcelStore`, written over a small
executable model of the `database/sql` calls they make (`Exec`, `QueryRow(...).Scan`,
`Query` with the `Next`/`Scan`/`Err` loop) on the single table `parcel`.

* Go's `int` and `int64` are modelled by `Int`; the conversion `int(id)` in `Add` is the
  identity (64-bit `int`), and identifiers are assumed to stay inside that range.
* A Go return pair `(value, err)` is a Lean pair `value × Option GoError`, `none` being `nil`.
* The table is the list of its rows in storage order; the handle also counts the round
  trips made through it, so that "one statement per operation, no retry" can be stated.
* What the driver does wrong during one call is an explicit argument (`Faults`).
-/

/-! ## Data model -/

/-- Modelled from the spec: the record type `Parcel`, declared outside `parcel.go`; the five
fields are the ones `parcel.go` reads, writes and scans. -/
structure Parcel where
  Number : Int
  Client : Int
  Status : String
  Address : String
  CreatedAt : String
deriving DecidableEq, Repr

/-- The zero value `Parcel{}`. -/
def Parcel.zero : Parcel := ⟨0, 0, "", "", ""⟩

/-- Modelled from the spec: the constant `ParcelStatusRegistered`, declared outside
`parcel.go`; the spec gives the guard value as `registered`. -/
def ParcelStatusRegistered : String := "registered"

/-- Values of Go's `error` interface, as far as a caller can observe them: the sentinel
`sql.ErrNoRows` (compared with `==`), a value built by `errors.New` (a fresh pointer each
time, so only its text can be observed), and any other error type of the driver. -/
inductive GoError where
  | ErrNoRows : GoError
  | New (text : String) : GoError
  | driver (code : Nat) (text : String) : GoError
deriving DecidableEq, Repr

/-! ## The database handle -/

/-- The state behind `*sql.DB`: the rows of table `parcel` in storage order, and the number
of round trips made so far. -/
structure DB where
  rows : List Parcel
  calls : Nat
deriving DecidableEq, Repr

/-- What goes wrong in the driver during one call: `call` fails the `Exec`, `Query` or
`QueryRow` itself; `lastInsertId` fails `Result.LastInsertId`; `scan i` fails `Scan` on the
`i`-th row delivered; `iter = some (k, e)` breaks the iteration after `k` rows, `Rows.Err`
then reporting `e`. -/
structure Faults where
  call : Option GoError
  lastInsertId : Option GoError
  scan : Nat → Option GoError
  iter : Option (Nat × GoError)

/-- The driver works. -/
def noFaults : Faults := ⟨none, none, fun _ => none, none⟩

/-- The four statements `parcel.go` passes to `Exec`, with the arguments the caller
chooses, in the order of the placeholders. -/
inductive Stmt where
  /-- INSERT INTO parcel (client, status, address, created_at) VALUES (?, ?, ?, ?) -/
  | insertParcel (client : Int) (status address createdAt : String) : Stmt
  /-- UPDATE parcel SET status = ? WHERE number = ? -/
  | updateStatus (status : String) (number : Int) : Stmt
  /-- UPDATE parcel SET address = ? WHERE number = ? AND status = ?, the status bound to
  the constant ParcelStatusRegistered -/
  | updateAddress (address : String) (number : Int) : Stmt
  /-- DELETE FROM parcel WHERE number = ? AND status = ?, the status bound to the constant
  ParcelStatusRegistered -/
  | deleteParcel (number : Int) : Stmt
deriving DecidableEq, Repr

/-- The two queries of `parcel.go`; both select all five columns. -/
inductive Select where
  /-- SELECT ... FROM parcel WHERE number = ? -/
  | byNumber (number : Int) : Select
  /-- SELECT ... FROM parcel WHERE client = ? -/
  | byClient (client : Int) : Select
deriving DecidableEq, Repr

/-- The `sql.Result` of an `Exec`. -/
structure Result where
  LastInsertId : Int × Option GoError
  RowsAffected : Nat
deriving DecidableEq, Repr

/-- The `sql.Rows` of a `Query` as the reading loop sees it: the outcome of `Scan` for each
row `Next` delivers, and what `Err` reports once `Next` has returned false. -/
structure Rows where
  scans : List (Except GoError Parcel)
  Err : Option GoError

/-- The `sql.Row` of a `QueryRow`: a deferred error, or the rows selected. -/
structure Row where
  err : Option GoError
  rows : Rows

/-- Modelled from the spec: the identifier the store assigns to a new row (`number` is an
auto-assigned integer primary key; the schema is not part of `parcel.go`): one more than
the largest number in use, and 1 for an empty table. -/
def nextNumber (rows : List Parcel) : Int :=
  rows.foldl (fun m r => max m r.Number) 0 + 1

/-- The rows a WHERE clause of a query selects, in storage order. -/
def Select.rowsOf (q : Select) (rows : List Parcel) : List Parcel :=
  match q with
  | .byNumber number => rows.filter (fun r => decide (r.Number = number))
  | .byClient client => rows.filter (fun r => decide (r.Client = client))

/-- What `UPDATE parcel SET status = ? WHERE number = ?` leaves in place of row `r`. -/
def withStatus (number : Int) (status : String) (r : Parcel) : Parcel :=
  if r.Number = number then { r with Status := status } else r

/-- What `UPDATE parcel SET address = ? WHERE number = ? AND status = ?` leaves in place of
row `r`; `SetAddress` binds the last placeholder to `ParcelStatusRegistered`. -/
def withAddress (number : Int) (address : String) (r : Parcel) : Parcel :=
  if r.Number = number ∧ r.Status = ParcelStatusRegistered then
    { r with Address := address } else r

/-- Whether `DELETE FROM parcel WHERE number = ? AND status = ?` keeps row `r`; `Delete`
binds the last placeholder to `ParcelStatusRegistered`. -/
def kept (number : Int) (r : Parcel) : Bool :=
  !decide (r.Number = number ∧ r.Status = ParcelStatusRegistered)

/-- The table after a statement ran, and the number of rows it touched. -/
def Stmt.run (st : Stmt) (rows : List Parcel) : List Parcel × Nat :=
  match st with
  | .insertParcel client status address createdAt =>
    (rows ++ [⟨nextNumber rows, client, status, address, createdAt⟩], 1)
  | .updateStatus status number =>
    (rows.map (withStatus number status),
     rows.countP (fun r => decide (r.Number = number)))
  | .updateAddress address number =>
    (rows.map (withAddress number address),
     rows.countP (fun r => decide (r.Number = number ∧ r.Status = ParcelStatusRegistered)))
  | .deleteParcel number =>
    (rows.filter (kept number),
     rows.countP (fun r => decide (r.Number = number ∧ r.Status = ParcelStatusRegistered)))

/-- The call `db.Exec(stmt, args...)`: one round trip; a failed call changes no row. -/
def DB.Exec (db : DB) (f : Faults) (st : Stmt) : Except GoError Result × DB :=
  match f.call with
  | some e => (.error e, ⟨db.rows, db.calls + 1⟩)
  | none =>
    let out := st.run db.rows
    let id : Int × Option GoError :=
      match f.lastInsertId with
      | some e => (0, some e)
      | none =>
        match st with
        | .insertParcel _ _ _ _ => (nextNumber db.rows, none)
        | _ => (0, none)
    (.ok ⟨id, out.2⟩, ⟨out.1, db.calls + 1⟩)

/-- The rows a query delivers under the faults of the call. -/
def DB.deliver (db : DB) (f : Faults) (q : Select) : Rows :=
  let selected := q.rowsOf db.rows
  let cut : List Parcel × Option GoError :=
    match f.iter with
    | some (k, e) => (selected.take k, some e)
    | none => (selected, none)
  ⟨cut.1.enum.map (fun ir =>
      match f.scan ir.1 with
      | some e => Except.error e
      | none => Except.ok ir.2),
   cut.2⟩

/-- The call `db.Query(query, args...)`: one round trip, no row changes. -/
def DB.Query (db : DB) (f : Faults) (q : Select) : Except GoError Rows × DB :=
  match f.call with
  | some e => (.error e, ⟨db.rows, db.calls + 1⟩)
  | none => (.ok (db.deliver f q), ⟨db.rows, db.calls + 1⟩)

/-- The call `db.QueryRow(query, args...)`: as `Query`, the error kept for `Scan`. -/
def DB.QueryRow (db : DB) (f : Faults) (q : Select) : Row × DB :=
  match f.call with
  | some e => (⟨some e, ⟨[], none⟩⟩, ⟨db.rows, db.calls + 1⟩)
  | none => (⟨none, db.deliver f q⟩, ⟨db.rows, db.calls + 1⟩)

/-- The call `row.Scan(dest...)` of `database/sql`: the deferred error if there is one;
with no row delivered, the iteration error or else `sql.ErrNoRows`; otherwise the scan of
the first row. -/
def Row.Scan (row : Row) : Except GoError Parcel :=
  match row.err with
  | some e => .error e
  | none =>
    match row.rows.scans with
    | [] =>
      match row.rows.Err with
      | some e => .error e
      | none => .error GoError.ErrNoRows
    | x :: _ => x

/-! ## parcel.go -/

/-- The struct `ParcelStore`: a handle on the database. -/
structure ParcelStore where
  db : DB
deriving DecidableEq, Repr

/-- The constructor `NewParcelStore`. -/
def NewParcelStore (db : DB) : ParcelStore := ⟨db⟩

namespace ParcelStore

/-- The error `Get` builds when `Scan` reports `sql.ErrNoRows`. -/
def notFound : GoError := GoError.New "no parcel found with the given number"

/-- The method `Add`. -/
def Add (s : ParcelStore) (f : Faults) (p : Parcel) : (Int × Option GoError) × ParcelStore :=
  match s.db.Exec f (Stmt.insertParcel p.Client p.Status p.Address p.CreatedAt) with
  | (.error err, db) => ((0, some err), ⟨db⟩)
  | (.ok res, db) =>
    match res.LastInsertId with
    | (_, some err) => ((0, some err), ⟨db⟩)
    | (id, none) => ((id, none), ⟨db⟩)

/-- The method `Get`. -/
def Get (s : ParcelStore) (f : Faults) (number : Int) :
    (Parcel × Option GoError) × ParcelStore :=
  match s.db.QueryRow f (Select.byNumber number) with
  | (row, db) =>
    match row.Scan with
    | .error err =>
      if err = GoError.ErrNoRows then ((Parcel.zero, some notFound), ⟨db⟩)
      else ((Parcel.zero, some err), ⟨db⟩)
    | .ok p => ((p, none), ⟨db⟩)

/-- The loop `for rows.Next()` of `GetByClient`: the error of the first `Scan` that failed (the
method returns at once with it), else the parcels appended so far. -/
def scanLoop : List (Except GoError Parcel) → List Parcel → Except GoError (List Parcel)
  | [], parcels => .ok parcels
  | .error err :: _, _ => .error err
  | .ok p :: rest, parcels => scanLoop rest (parcels ++ [p])

/-- The method `GetByClient`; the nil slice is the empty list. -/
def GetByClient (s : ParcelStore) (f : Faults) (client : Int) :
    (List Parcel × Option GoError) × ParcelStore :=
  match s.db.Query f (Select.byClient client) with
  | (.error err, db) => (([], some err), ⟨db⟩)
  | (.ok rows, db) =>
    match scanLoop rows.scans [] with
    | .error err => (([], some err), ⟨db⟩)
    | .ok parcels =>
      match rows.Err with
      | some err => (([], some err), ⟨db⟩)
      | none => ((parcels, none), ⟨db⟩)

/-- The method `SetStatus`. -/
def SetStatus (s : ParcelStore) (f : Faults) (number : Int) (status : String) :
    Option GoError × ParcelStore :=
  match s.db.Exec f (Stmt.updateStatus status number) with
  | (.error err, db) => (some err, ⟨db⟩)
  | (.ok _, db) => (none, ⟨db⟩)

/-- The method `SetAddress`. -/
def SetAddress (s : ParcelStore) (f : Faults) (number : Int) (address : String) :
    Option GoError × ParcelStore :=
  match s.db.Exec f (Stmt.updateAddress address number) with
  | (.error err, db) => (some err, ⟨db⟩)
  | (.ok _, db) => (none, ⟨db⟩)

/-- The method `Delete`. -/
def Delete (s : ParcelStore) (f : Faults) (number : Int) : Option GoError × ParcelStore :=
  match s.db.Exec f (Stmt.deleteParcel number) with
  | (.error err, db) => (some err, ⟨db⟩)
  | (.ok _, db) => (none, ⟨db⟩)

/-- A run of `Add` calls, each under its own driver behaviour: the results returned, in
order, and the final state. -/
def addAll (s : ParcelStore) : List (Faults × Parcel) →
    List (Int × Option GoError) × ParcelStore
  | [] => ([], s)
  | (f, p) :: rest =>
    ((s.Add f p).1 :: (addAll (s.Add f p).2 rest).1, (addAll (s.Add f p).2 rest).2)

end ParcelStore

/-! ## Reading the table -/

/-- The first row with the given number, in storage order. -/
def DB.lookup (db : DB) (number : Int) : Option Parcel :=
  db.rows.find? (fun r => decide (r.Number = number))

/-- The primary key: no two rows share a number. -/
def Keyed (rows : List Parcel) : Prop := (rows.map Parcel.Number).Nodup

instance (rows : List Parcel) : Decidable (Keyed rows) := by
  unfold Keyed; infer_instance

/-- The columns of a row that no statement of `parcel.go` assigns. -/
def Parcel.fixed (r : Parcel) : Int × Int × String := (r.Number, r.Client, r.CreatedAt)

/-! ## The engine -/

theorem foldl_max_ge (rows : List Parcel) (m : Int) :
    m ≤ rows.foldl (fun m r => max m r.Number) m := by
  induction rows generalizing m with
  | nil => simp
  | cons r rest ih => exact le_trans (le_max_left m r.Number) (ih (max m r.Number))

theorem foldl_max_mem (rows : List Parcel) (m : Int) (r : Parcel) (h : r ∈ rows) :
    r.Number ≤ rows.foldl (fun m r => max m r.Number) m := by
  induction rows generalizing m with
  | nil => cases h
  | cons x rest ih =>
    rcases List.mem_cons.mp h with rfl | h
    · exact le_trans (le_max_right m r.Number) (foldl_max_ge rest (max m r.Number))
    · exact ih (max m x.Number) h

/-- The number given to a new row is larger than every number in the table. -/
theorem lt_nextNumber (rows : List Parcel) (r : Parcel) (h : r ∈ rows) :
    r.Number < nextNumber rows := by
  have := foldl_max_mem rows 0 r h
  unfold nextNumber
  omega

theorem map_enumFrom_snd {β : Type} (g : Parcel → β) (l : List Parcel) (k : Nat) :
    (l.enumFrom k).map (fun ir => g ir.2) = l.map g := by
  induction l generalizing k with
  | nil => rfl
  | cons x rest ih => simp [List.enumFrom, ih]

theorem scans_noFaults (db : DB) (q : Select) :
    (db.deliver noFaults q).scans = (q.rowsOf db.rows).map Except.ok := by
  simp only [DB.deliver, noFaults, List.enum]
  exact map_enumFrom_snd Except.ok _ 0

theorem find_of_filter_nil (rows : List Parcel) (p : Parcel → Bool)
    (h : rows.filter p = []) : rows.find? p = none := by
  rw [List.find?_eq_none]
  exact List.filter_eq_nil_iff.mp h

theorem find_of_filter_cons (rows : List Parcel) (p : Parcel → Bool) (x : Parcel)
    (t : List Parcel) (h : rows.filter p = x :: t) : rows.find? p = some x := by
  induction rows with
  | nil => simp at h
  | cons r rest ih =>
    by_cases hr : p r = true
    · simp only [List.filter, hr, List.cons.injEq] at h
      obtain ⟨rfl, _⟩ := h
      simp [List.find?, hr]
    · simp only [Bool.not_eq_true] at hr
      simp only [List.filter, hr] at h
      simpa [List.find?, hr] using ih h

/-- The first scan of a delivery, if it succeeds, is the first row selected. -/
theorem deliver_head (db : DB) (f : Faults) (q : Select) (x : Parcel)
    (t : List (Except GoError Parcel)) (h : (db.deliver f q).scans = .ok x :: t) :
    ∃ u, q.rowsOf db.rows = x :: u := by
  simp only [DB.deliver] at h
  cases hsel : q.rowsOf db.rows with
  | nil =>
    rw [hsel] at h
    cases hi : f.iter with
    | none => simp [hi] at h
    | some ke => obtain ⟨k, e⟩ := ke; simp [hi] at h
  | cons y u =>
    rw [hsel] at h
    refine ⟨u, ?_⟩
    cases hi : f.iter with
    | none =>
      simp only [hi, List.enum, List.enumFrom, List.map_cons, List.cons.injEq] at h
      cases hs : f.scan 0 with
      | none => simp [hs] at h; rw [h.1]
      | some e => simp [hs] at h
    | some ke =>
      obtain ⟨k, e⟩ := ke
      cases k with
      | zero => simp [hi] at h
      | succ k =>
        simp only [hi, List.take_succ_cons, List.enum, List.enumFrom, List.map_cons,
          List.cons.injEq] at h
        cases hs : f.scan 0 with
        | none => simp [hs] at h; rw [h.1]
        | some e => simp [hs] at h

namespace ParcelStore

/-! ## What each method does, by the outcome of its database call -/

theorem Get_rows (s : ParcelStore) (f : Faults) (n : Int) :
    (Get s f n).2 = ⟨⟨s.db.rows, s.db.calls + 1⟩⟩ := by
  unfold Get DB.QueryRow
  cases f.call <;> simp only <;> split <;> (try split) <;> rfl

/-- With a working driver `Get` returns the first row carrying the number, or the
not-found error. -/
theorem Get_noFaults (s : ParcelStore) (n : Int) :
    (Get s noFaults n).1 =
      match s.db.lookup n with
      | some r => (r, none)
      | none => (Parcel.zero, some notFound) := by
  have hs := scans_noFaults s.db (Select.byNumber n)
  have hc : noFaults.call = none := rfl
  have he : (s.db.deliver noFaults (Select.byNumber n)).Err = none := rfl
  simp only [Get, DB.QueryRow, hc, Row.Scan, hs, he, DB.lookup, Select.rowsOf]
  cases hf : s.db.rows.filter (fun r => decide (r.Number = n)) with
  | nil => simp [find_of_filter_nil _ _ hf]
  | cons x t => simp [find_of_filter_cons _ _ x t hf]

/-- Whatever the driver does, a `Get` that returns no error returns the first row carrying
the number. -/
theorem Get_ok_lookup (s : ParcelStore) (f : Faults) (n : Int) (r : Parcel)
    (h : (Get s f n).1 = (r, none)) : s.db.lookup n = some r := by
  unfold Get DB.QueryRow at h
  cases hc : f.call with
  | some e =>
    simp only [hc, Row.Scan] at h
    split at h <;> simp at h
  | none =>
    simp only [hc, Row.Scan] at h
    cases hsc : (s.db.deliver f (Select.byNumber n)).scans with
    | nil =>
      simp only [hsc] at h
      cases he : (s.db.deliver f (Select.byNumber n)).Err with
      | none => simp [he] at h
      | some e => simp only [he] at h; split at h <;> simp at h
    | cons x t =>
      simp only [hsc] at h
      cases x with
      | error e => simp only at h; split at h <;> simp at h
      | ok y =>
        simp only [Prod.mk.injEq, and_true] at h
        subst h
        obtain ⟨u, hu⟩ := deliver_head s.db f (Select.byNumber n) y t hsc
        exact find_of_filter_cons _ _ y u hu

theorem Add_fail (s : ParcelStore) (f : Faults) (p : Parcel) (e : GoError)
    (h : f.call = some e) : Add s f p = ((0, some e), ⟨⟨s.db.rows, s.db.calls + 1⟩⟩) := by
  simp [Add, DB.Exec, h]

theorem Add_noId (s : ParcelStore) (f : Faults) (p : Parcel) (e : GoError)
    (h : f.call = none) (hid : f.lastInsertId = some e) :
    Add s f p = ((0, some e),
      ⟨⟨s.db.rows ++ [⟨nextNumber s.db.rows, p.Client, p.Status, p.Address, p.CreatedAt⟩],
        s.db.calls + 1⟩⟩) := by
  simp [Add, DB.Exec, h, hid, Stmt.run]

theorem Add_ok (s : ParcelStore) (f : Faults) (p : Parcel)
    (h : f.call = none) (hid : f.lastInsertId = none) :
    Add s f p = ((nextNumber s.db.rows, none),
      ⟨⟨s.db.rows ++ [⟨nextNumber s.db.rows, p.Client, p.Status, p.Address, p.CreatedAt⟩],
        s.db.calls + 1⟩⟩) := by
  simp [Add, DB.Exec, h, hid, Stmt.run]

/-- A successful `Add` is one whose insert and identifier retrieval both worked. -/
theorem Add_success (s : ParcelStore) (f : Faults) (p : Parcel) (n : Int)
    (h : (Add s f p).1 = (n, none)) : f.call = none ∧ f.lastInsertId = none := by
  cases hc : f.call with
  | some e => rw [Add_fail s f p e hc] at h; simp at h
  | none =>
    cases hid : f.lastInsertId with
    | some e => rw [Add_noId s f p e hc hid] at h; simp at h
    | none => exact ⟨rfl, rfl⟩

end ParcelStore

/-! ## Rows under the three statements that write -/

theorem withStatus_fixed (n : Int) (st : String) (r : Parcel) :
    (withStatus n st r).fixed = r.fixed := by
  unfold withStatus; split <;> rfl

theorem withAddress_fixed (n : Int) (a : String) (r : Parcel) :
    (withAddress n a r).fixed = r.fixed := by
  unfold withAddress; split <;> rfl

theorem withStatus_number (n : Int) (st : String) (r : Parcel) :
    (withStatus n st r).Number = r.Number := by
  unfold withStatus; split <;> rfl

theorem withAddress_number (n : Int) (a : String) (r : Parcel) :
    (withAddress n a r).Number = r.Number := by
  unfold withAddress; split <;> rfl

theorem find_map_withStatus (rows : List Parcel) (n m : Int) (st : String) :
    (rows.map (withStatus n st)).find? (fun r => decide (r.Number = m)) =
      (rows.find? (fun r => decide (r.Number = m))).map (withStatus n st) := by
  rw [List.find?_map]
  congr 2
  funext r
  simp [withStatus_number]

theorem find_map_withAddress (rows : List Parcel) (n m : Int) (a : String) :
    (rows.map (withAddress n a)).find? (fun r => decide (r.Number = m)) =
      (rows.find? (fun r => decide (r.Number = m))).map (withAddress n a) := by
  rw [List.find?_map]
  congr 2
  funext r
  simp [withAddress_number]

theorem find_append_fresh (rows : List Parcel) (x : Parcel) (m : Int) (h : x.Number ≠ m) :
    (rows ++ [x]).find? (fun r => decide (r.Number = m)) =
      rows.find? (fun r => decide (r.Number = m)) := by
  rw [List.find?_append]
  simp [List.find?, h]

theorem find_append_new (rows : List Parcel) (x : Parcel)
    (h : ∀ r ∈ rows, r.Number ≠ x.Number) :
    (rows ++ [x]).find? (fun r => decide (r.Number = x.Number)) = some x := by
  rw [List.find?_append]
  have : rows.find? (fun r => decide (r.Number = x.Number)) = none := by
    rw [List.find?_eq_none]
    intro r hr
    simpa using h r hr
  simp [this, List.find?]

namespace ParcelStore

theorem SetStatus_fail (s : ParcelStore) (f : Faults) (n : Int) (st : String) (e : GoError)
    (h : f.call = some e) :
    SetStatus s f n st = (some e, ⟨⟨s.db.rows, s.db.calls + 1⟩⟩) := by
  simp [SetStatus, DB.Exec, h]

theorem SetStatus_ok (s : ParcelStore) (f : Faults) (n : Int) (st : String)
    (h : f.call = none) :
    SetStatus s f n st = (none, ⟨⟨s.db.rows.map (withStatus n st), s.db.calls + 1⟩⟩) := by
  simp only [SetStatus, DB.Exec, h, Stmt.run]

theorem SetAddress_fail (s : ParcelStore) (f : Faults) (n : Int) (a : String) (e : GoError)
    (h : f.call = some e) :
    SetAddress s f n a = (some e, ⟨⟨s.db.rows, s.db.calls + 1⟩⟩) := by
  simp [SetAddress, DB.Exec, h]

theorem SetAddress_ok (s : ParcelStore) (f : Faults) (n : Int) (a : String)
    (h : f.call = none) :
    SetAddress s f n a = (none, ⟨⟨s.db.rows.map (withAddress n a), s.db.calls + 1⟩⟩) := by
  simp only [SetAddress, DB.Exec, h, Stmt.run]

theorem Delete_fail (s : ParcelStore) (f : Faults) (n : Int) (e : GoError)
    (h : f.call = some e) :
    Delete s f n = (some e, ⟨⟨s.db.rows, s.db.calls + 1⟩⟩) := by
  simp [Delete, DB.Exec, h]

theorem Delete_ok (s : ParcelStore) (f : Faults) (n : Int) (h : f.call = none) :
    Delete s f n = (none, ⟨⟨s.db.rows.filter (kept n), s.db.calls + 1⟩⟩) := by
  simp only [Delete, DB.Exec, h, Stmt.run]

/-- The three writers return exactly the error of their one `Exec`. -/
theorem SetStatus_err (s : ParcelStore) (f : Faults) (n : Int) (st : String) :
    (SetStatus s f n st).1 = f.call := by
  cases h : f.call with
  | none => rw [SetStatus_ok s f n st h]
  | some e => rw [SetStatus_fail s f n st e h]

theorem SetAddress_err (s : ParcelStore) (f : Faults) (n : Int) (a : String) :
    (SetAddress s f n a).1 = f.call := by
  cases h : f.call with
  | none => rw [SetAddress_ok s f n a h]
  | some e => rw [SetAddress_fail s f n a e h]

theorem Delete_err (s : ParcelStore) (f : Faults) (n : Int) :
    (Delete s f n).1 = f.call := by
  cases h : f.call with
  | none => rw [Delete_ok s f n h]
  | some e => rw [Delete_fail s f n e h]

end ParcelStore

/-! ## Round trip -/

/-- Claim C1: when `Add p` succeeds and returns `n`, `Get n` on the resulting state, with a
working driver, succeeds and returns the record numbered `n` with the client, status,
address and creation time of `p`; and under any driver behaviour a `Get n` that returns no
error returns that same record. -/
theorem add_get_roundtrip (s : ParcelStore) (f : Faults) (p : Parcel) (n : Int)
    (h : (ParcelStore.Add s f p).1 = (n, none)) :
    ((ParcelStore.Add s f p).2.Get noFaults n).1 =
        (⟨n, p.Client, p.Status, p.Address, p.CreatedAt⟩, none) ∧
      ∀ (g : Faults) (r : Parcel), ((ParcelStore.Add s f p).2.Get g n).1 = (r, none) →
        r.Number = n ∧ r.Client = p.Client ∧ r.Status = p.Status ∧ r.Address = p.Address := by
  obtain ⟨hc, hid⟩ := ParcelStore.Add_success s f p n h
  rw [ParcelStore.Add_ok s f p hc hid] at h ⊢
  simp only [Prod.mk.injEq, and_true] at h
  subst h
  have hl : DB.lookup ⟨s.db.rows ++
      [⟨nextNumber s.db.rows, p.Client, p.Status, p.Address, p.CreatedAt⟩], s.db.calls + 1⟩
      (nextNumber s.db.rows) =
      some ⟨nextNumber s.db.rows, p.Client, p.Status, p.Address, p.CreatedAt⟩ :=
    find_append_new s.db.rows ⟨nextNumber s.db.rows, p.Client, p.Status, p.Address,
      p.CreatedAt⟩ (fun r hr => ne_of_lt (lt_nextNumber s.db.rows r hr))
  refine ⟨?_, ?_⟩
  · rw [ParcelStore.Get_noFaults]
    simp only [hl]
  · intro g r hg
    have := ParcelStore.Get_ok_lookup _ g _ r hg
    rw [hl] at this
    cases this
    exact ⟨rfl, rfl, rfl, rfl⟩

theorem add_get_roundtrip_witness :
    (ParcelStore.Add ⟨⟨[⟨1, 7, "sent", "a", "t0"⟩], 0⟩⟩ noFaults
        ⟨0, 1000, "registered", "test", "t1"⟩).1 = (2, none) ∧
      ((ParcelStore.Add ⟨⟨[⟨1, 7, "sent", "a", "t0"⟩], 0⟩⟩ noFaults
        ⟨0, 1000, "registered", "test", "t1"⟩).2.Get noFaults 2).1 =
        (⟨2, 1000, "registered", "test", "t1"⟩, none) :=
  ⟨by decide, (add_get_roundtrip ⟨⟨[⟨1, 7, "sent", "a", "t0"⟩], 0⟩⟩ noFaults
    ⟨0, 1000, "registered", "test", "t1"⟩ 2 (by decide)).1⟩

/-! ## Not found -/

theorem keyed_unique (rows : List Parcel) (hk : Keyed rows) (x y : Parcel)
    (hx : x ∈ rows) (hy : y ∈ rows) (hxy : x.Number = y.Number) : x = y :=
  List.inj_on_of_nodup_map hk hx hy hxy

theorem find_number (rows : List Parcel) (n : Int) (r : Parcel)
    (hl : rows.find? (fun x => decide (x.Number = n)) = some r) : r ∈ rows ∧ r.Number = n :=
  ⟨List.mem_of_find?_eq_some hl, by simpa using List.find?_some hl⟩

theorem find_filter_kept_registered (rows : List Parcel) (n : Int) (r : Parcel)
    (hk : Keyed rows) (hl : rows.find? (fun x => decide (x.Number = n)) = some r)
    (hr : r.Status = ParcelStatusRegistered) :
    (rows.filter (kept n)).find? (fun x => decide (x.Number = n)) = none := by
  obtain ⟨hmem, hn⟩ := find_number rows n r hl
  rw [List.find?_eq_none]
  intro x hx
  obtain ⟨hxm, hxk⟩ := List.mem_filter.mp hx
  intro hxn
  have hxn : x.Number = n := by simpa using hxn
  have : x = r := keyed_unique rows hk x r hxm hmem (hxn.trans hn.symm)
  subst this
  simp [kept, hxn, hr] at hxk

theorem find_filter_kept_other (rows : List Parcel) (n : Int) (r : Parcel)
    (hl : rows.find? (fun x => decide (x.Number = n)) = some r)
    (hr : r.Status ≠ ParcelStatusRegistered) :
    (rows.filter (kept n)).find? (fun x => decide (x.Number = n)) = some r := by
  induction rows with
  | nil => simp at hl
  | cons x rest ih =>
    by_cases hx : x.Number = n
    · simp only [List.find?, hx, decide_True, Option.some.injEq] at hl
      subst hl
      simp [List.filter, kept, hx, hr, List.find?]
    · simp only [List.find?, hx, decide_False] at hl
      simp only [List.filter, kept, hx, false_and, decide_False, Bool.not_false, List.find?]
      exact ih hl

theorem filter_kept_unchanged (rows : List Parcel) (n : Int) (r : Parcel)
    (hk : Keyed rows) (hl : rows.find? (fun x => decide (x.Number = n)) = some r)
    (hr : r.Status ≠ ParcelStatusRegistered) : rows.filter (kept n) = rows := by
  obtain ⟨hmem, hn⟩ := find_number rows n r hl
  rw [List.filter_eq_self]
  intro x hx
  by_cases hxn : x.Number = n
  · have : x = r := keyed_unique rows hk x r hx hmem (hxn.trans hn.symm)
    subst this
    simp [kept, hr]
  · simp [kept, hxn]

/-- Claim C2, as stated, fails: a read of an existing row that the driver fails with an
`errors.New` value of the same text gives the caller exactly what `Get` gives for a number
that has no row. -/
theorem get_notFound_indistinguishable :
    (DB.lookup ⟨[⟨1, 1000, "registered", "test", "t"⟩], 0⟩ 1).isSome = true ∧
      (ParcelStore.Get ⟨⟨[⟨1, 1000, "registered", "test", "t"⟩], 0⟩⟩
        ⟨some (GoError.New "no parcel found with the given number"), none, fun _ => none,
          none⟩ 1).1 = (Parcel.zero, some ParcelStore.notFound) ∧
      (ParcelStore.Get ⟨⟨[], 0⟩⟩ noFaults 1).1 = (Parcel.zero, some ParcelStore.notFound) := by
  decide

/-- Claim C2, amended: with a working driver `Get n` returns the empty parcel and the error
`errors.New("no parcel found with the given number")` exactly when no row carries `n`, in
particular after a successful `Delete n` of a registered parcel in a table with unique
numbers; that error differs from `sql.ErrNoRows`, from every error of another type and
from every `errors.New` value of another text, and a read that fails with an error other
than `sql.ErrNoRows` and other than a value of this same form never yields it. -/
theorem get_missing (s : ParcelStore) (n : Int) :
    ((s.Get noFaults n).1 = (Parcel.zero, some ParcelStore.notFound) ↔
        s.db.lookup n = none) ∧
      (∀ (f : Faults) (r : Parcel), Keyed s.db.rows → s.db.lookup n = some r →
        r.Status = ParcelStatusRegistered → (s.Delete f n).1 = none →
        ((s.Delete f n).2.Get noFaults n).1 = (Parcel.zero, some ParcelStore.notFound)) ∧
      (∀ (f : Faults) (e : GoError),
        (s.db.QueryRow f (Select.byNumber n)).1.Scan = .error e → e ≠ GoError.ErrNoRows →
        e ≠ ParcelStore.notFound →
        (s.Get f n).1 = (Parcel.zero, some e) ∧
          (s.Get f n).1.2 ≠ some ParcelStore.notFound) ∧
      ParcelStore.notFound ≠ GoError.ErrNoRows ∧
      (∀ (code : Nat) (text : String), ParcelStore.notFound ≠ GoError.driver code text) ∧
      (∀ text : String, text ≠ "no parcel found with the given number" →
        ParcelStore.notFound ≠ GoError.New text) := by
  refine ⟨?_, ?_, ?_, ?_, ?_, ?_⟩
  · rw [ParcelStore.Get_noFaults]
    cases hl : s.db.lookup n with
    | none => simp
    | some r => simp
  · intro f r hk hl hr hd
    rw [ParcelStore.Delete_err] at hd
    rw [ParcelStore.Delete_ok s f n hd, ParcelStore.Get_noFaults]
    have : DB.lookup ⟨s.db.rows.filter (kept n), s.db.calls + 1⟩ n = none :=
      find_filter_kept_registered s.db.rows n r hk hl hr
    simp only [this]
  · intro f e hc hne hnf
    have hg : (s.Get f n).1 = (Parcel.zero, some e) := by
      unfold ParcelStore.Get
      simp only [hc, hne, if_false]
    rw [hg]
    exact ⟨rfl, fun h => hnf (Option.some.inj h)⟩
  · simp [ParcelStore.notFound]
  · intro code text
    simp [ParcelStore.notFound]
  · intro text ht
    simp only [ParcelStore.notFound, ne_eq, GoError.New.injEq]
    exact fun h => ht h.symm

theorem get_missing_witness :
    ((ParcelStore.Get ⟨⟨[⟨1, 1000, "registered", "test", "t"⟩], 0⟩⟩ noFaults 2).1 =
        (Parcel.zero, some ParcelStore.notFound) ↔
      DB.lookup ⟨[⟨1, 1000, "registered", "test", "t"⟩], 0⟩ 2 = none) ∧
    ((ParcelStore.Delete ⟨⟨[⟨1, 1000, "registered", "test", "t"⟩], 0⟩⟩ noFaults 1).2.Get
        noFaults 1).1 = (Parcel.zero, some ParcelStore.notFound) :=
  ⟨(get_missing ⟨⟨[⟨1, 1000, "registered", "test", "t"⟩], 0⟩⟩ 2).1,
   (get_missing ⟨⟨[⟨1, 1000, "registered", "test", "t"⟩], 0⟩⟩ 1).2.1 noFaults
     ⟨1, 1000, "registered", "test", "t"⟩ (by decide) (by decide) (by decide) (by decide)⟩

/-! ## Guarded and unguarded writes -/

theorem withStatus_same (n : Int) (st : String) (r : Parcel) (h : r.Number = n) :
    withStatus n st r = { r with Status := st } := by
  simp [withStatus, h]

theorem withAddress_registered (n : Int) (a : String) (r : Parcel) (h : r.Number = n)
    (hr : r.Status = ParcelStatusRegistered) :
    withAddress n a r = { r with Address := a } := by
  simp [withAddress, h, hr]

theorem withAddress_other (n : Int) (a : String) (r : Parcel)
    (hr : r.Status ≠ ParcelStatusRegistered) : withAddress n a r = r := by
  simp [withAddress, hr]

/-- After a `SetAddress n a` whose statement ran, the first row numbered `n` is the former
one with `withAddress` applied. -/
theorem lookup_SetAddress (s : ParcelStore) (f : Faults) (n m : Int) (a : String)
    (h : (s.SetAddress f n a).1 = none) :
    (s.SetAddress f n a).2.db.lookup m = (s.db.lookup m).map (withAddress n a) := by
  rw [ParcelStore.SetAddress_err] at h
  rw [ParcelStore.SetAddress_ok s f n a h]
  exact find_map_withAddress s.db.rows n m a

theorem lookup_SetStatus (s : ParcelStore) (f : Faults) (n m : Int) (st : String)
    (h : (s.SetStatus f n st).1 = none) :
    (s.SetStatus f n st).2.db.lookup m = (s.db.lookup m).map (withStatus n st) := by
  rw [ParcelStore.SetStatus_err] at h
  rw [ParcelStore.SetStatus_ok s f n st h]
  exact find_map_withStatus s.db.rows n m st

/-- Claim C3: for a table whose row numbered `n` is `r`, after a `SetAddress n a` that
returned no error, `Get n` succeeds and returns address `a` if and only if `r` had status
registered or already had address `a`; it returns `r` with the new address when `r` was
registered and `r` itself, original address and status, with any other status; and after
`SetStatus n st` with `st` other than registered, `SetAddress n a` leaves the address of
`r` and the status `st` in place. -/
theorem setAddress_get (s : ParcelStore) (f : Faults) (n : Int) (a : String) (r : Parcel)
    (hl : s.db.lookup n = some r) (h : (s.SetAddress f n a).1 = none) :
    ((s.SetAddress f n a).2.Get noFaults n).1.2 = none ∧
      (((s.SetAddress f n a).2.Get noFaults n).1.1.Address = a ↔
        (r.Status = ParcelStatusRegistered ∨ r.Address = a)) ∧
      (r.Status = ParcelStatusRegistered →
        ((s.SetAddress f n a).2.Get noFaults n).1.1 = { r with Address := a }) ∧
      (r.Status ≠ ParcelStatusRegistered →
        ((s.SetAddress f n a).2.Get noFaults n).1.1 = r) ∧
      ((s.SetAddress f n a).2.Get noFaults n).1.1.Status = r.Status ∧
      (∀ (g k : Faults) (st : String), st ≠ ParcelStatusRegistered →
        (s.SetStatus g n st).1 = none → ((s.SetStatus g n st).2.SetAddress k n a).1 = none →
        (((s.SetStatus g n st).2.SetAddress k n a).2.Get noFaults n).1 =
          ({ r with Status := st }, none)) := by
  have hn : r.Number = n := (find_number s.db.rows n r hl).2
  have hg : ((s.SetAddress f n a).2.Get noFaults n).1 = (withAddress n a r, none) := by
    rw [ParcelStore.Get_noFaults, lookup_SetAddress s f n n a h, hl]
    rfl
  rw [hg]
  refine ⟨rfl, ?_, ?_, ?_, ?_, ?_⟩
  · by_cases hr : r.Status = ParcelStatusRegistered
    · simp [withAddress_registered n a r hn hr, hr]
    · simp [withAddress_other n a r hr, hr]
  · exact withAddress_registered n a r hn
  · exact withAddress_other n a r
  · simp only [withAddress]; split <;> rfl
  · intro g k st hst hg hk
    rw [ParcelStore.Get_noFaults, lookup_SetAddress _ k n n a hk,
      lookup_SetStatus s g n n st hg, hl]
    simp only [Option.map_some', withStatus_same n st r hn]
    rw [withAddress_other n a _ hst]

theorem setAddress_get_witness :
    (((ParcelStore.SetStatus ⟨⟨[⟨1, 1000, "registered", "test", "t"⟩], 0⟩⟩ noFaults 1
        "sent").2.SetAddress noFaults 1 "new address").2.Get noFaults 1).1 =
      (⟨1, 1000, "sent", "test", "t"⟩, none) :=
  (setAddress_get ⟨⟨[⟨1, 1000, "registered", "test", "t"⟩], 0⟩⟩ noFaults 1 "new address"
    ⟨1, 1000, "registered", "test", "t"⟩ (by decide) (by decide)).2.2.2.2.2 noFaults noFaults
    "sent" (by decide) (by decide) (by decide)

/-- Claim C5: for a table whose row numbered `n` is `r`, whatever the status of `r` and
whatever the string `st`, after a `SetStatus n st` that returned no error `Get n` succeeds
and returns `r` with status `st`; and under any driver behaviour a `Get n` that returns no
error returns a record of status `st`. -/
theorem setStatus_get (s : ParcelStore) (f : Faults) (n : Int) (st : String) (r : Parcel)
    (hl : s.db.lookup n = some r) (h : (s.SetStatus f n st).1 = none) :
    ((s.SetStatus f n st).2.Get noFaults n).1 = ({ r with Status := st }, none) ∧
      ∀ (g : Faults) (q : Parcel), ((s.SetStatus f n st).2.Get g n).1 = (q, none) →
        q.Status = st := by
  have hn : r.Number = n := (find_number s.db.rows n r hl).2
  have hl2 : (s.SetStatus f n st).2.db.lookup n = some { r with Status := st } := by
    rw [lookup_SetStatus s f n n st h, hl, Option.map_some', withStatus_same n st r hn]
  refine ⟨?_, ?_⟩
  · rw [ParcelStore.Get_noFaults, hl2]
  · intro g q hg
    have := ParcelStore.Get_ok_lookup _ g n q hg
    rw [hl2] at this
    cases this
    rfl

theorem setStatus_get_witness :
    ((ParcelStore.SetStatus ⟨⟨[⟨1, 1000, "sent", "test", "t"⟩], 0⟩⟩ noFaults 1
        "Delivered").2.Get noFaults 1).1 = (⟨1, 1000, "Delivered", "test", "t"⟩, none) :=
  (setStatus_get ⟨⟨[⟨1, 1000, "sent", "test", "t"⟩], 0⟩⟩ noFaults 1 "Delivered"
    ⟨1, 1000, "sent", "test", "t"⟩ (by decide) (by decide)).1

/-- Claim C4: in a table with unique numbers whose row numbered `n` is `r`, a `Delete n`
whose statement ran returns no error; the row is gone afterwards (and `Get n` fails, with
the not-found error) if and only if `r` had status registered; with any other status the
table is left as it was and `Get n` succeeds and returns `r` unchanged in every field. -/
theorem delete_get (s : ParcelStore) (f : Faults) (n : Int) (r : Parcel)
    (hk : Keyed s.db.rows) (hl : s.db.lookup n = some r) (hf : f.call = none) :
    (s.Delete f n).1 = none ∧
      (r ∉ (s.Delete f n).2.db.rows ↔ r.Status = ParcelStatusRegistered) ∧
      (((s.Delete f n).2.Get noFaults n).1.2 ≠ none ↔ r.Status = ParcelStatusRegistered) ∧
      (r.Status = ParcelStatusRegistered →
        ((s.Delete f n).2.Get noFaults n).1 = (Parcel.zero, some ParcelStore.notFound)) ∧
      (r.Status ≠ ParcelStatusRegistered →
        ((s.Delete f n).2.Get noFaults n).1 = (r, none) ∧
          (s.Delete f n).2.db.rows = s.db.rows) := by
  obtain ⟨hmem, hn⟩ := find_number s.db.rows n r hl
  have hreg : r.Status = ParcelStatusRegistered →
      DB.lookup ⟨s.db.rows.filter (kept n), s.db.calls + 1⟩ n = none :=
    find_filter_kept_registered s.db.rows n r hk hl
  have hoth : r.Status ≠ ParcelStatusRegistered →
      DB.lookup ⟨s.db.rows.filter (kept n), s.db.calls + 1⟩ n = some r :=
    find_filter_kept_other s.db.rows n r hl
  rw [ParcelStore.Delete_ok s f n hf, ParcelStore.Get_noFaults]
  refine ⟨rfl, ?_, ?_, ?_, ?_⟩
  · simp only [List.mem_filter, hmem, true_and, kept, hn]
    simp
  · by_cases hr : r.Status = ParcelStatusRegistered
    · simp [hreg hr, hr]
    · simp [hoth hr, hr]
  · intro hr
    simp only [hreg hr]
  · intro hr
    simp only [hoth hr]
    exact ⟨trivial, filter_kept_unchanged s.db.rows n r hk hl hr⟩

theorem delete_get_witness :
    (ParcelStore.Delete ⟨⟨[⟨1, 1000, "sent", "test", "t"⟩], 0⟩⟩ noFaults 1).1 = none ∧
      ((ParcelStore.Delete ⟨⟨[⟨1, 1000, "sent", "test", "t"⟩], 0⟩⟩ noFaults 1).2.Get
        noFaults 1).1 = (⟨1, 1000, "sent", "test", "t"⟩, none) :=
  ⟨(delete_get ⟨⟨[⟨1, 1000, "sent", "test", "t"⟩], 0⟩⟩ noFaults 1
      ⟨1, 1000, "sent", "test", "t"⟩ (by decide) (by decide) (by decide)).1,
   ((delete_get ⟨⟨[⟨1, 1000, "sent", "test", "t"⟩], 0⟩⟩ noFaults 1
      ⟨1, 1000, "sent", "test", "t"⟩ (by decide) (by decide) (by decide)).2.2.2.2
      (by decide)).1⟩

/-! ## Rows of a client -/

theorem scanLoop_ok (f : Faults) (l : List Parcel) (k : Nat) (acc ps : List Parcel)
    (h : ParcelStore.scanLoop ((l.enumFrom k).map (fun ir =>
        match f.scan ir.1 with
        | some e => Except.error e
        | none => Except.ok ir.2)) acc = .ok ps) : ps = acc ++ l := by
  induction l generalizing k acc with
  | nil =>
    simp only [List.enumFrom, List.map_nil, ParcelStore.scanLoop, Except.ok.injEq] at h
    simp [h]
  | cons x rest ih =>
    simp only [List.enumFrom, List.map_cons] at h
    cases hs : f.scan k with
    | some e => simp [hs, ParcelStore.scanLoop] at h
    | none =>
      simp only [hs, ParcelStore.scanLoop] at h
      rw [ih (k + 1) (acc ++ [x]) h]
      simp

theorem scanLoop_map_ok (l acc : List Parcel) :
    ParcelStore.scanLoop (l.map Except.ok) acc = .ok (acc ++ l) := by
  induction l generalizing acc with
  | nil => simp [ParcelStore.scanLoop]
  | cons x rest ih =>
    simp only [List.map_cons, ParcelStore.scanLoop]
    rw [ih (acc ++ [x])]
    simp

namespace ParcelStore

theorem GetByClient_rows (s : ParcelStore) (f : Faults) (c : Int) :
    (GetByClient s f c).2 = ⟨⟨s.db.rows, s.db.calls + 1⟩⟩ := by
  unfold GetByClient DB.Query
  cases f.call with
  | some e => rfl
  | none =>
    simp only
    cases scanLoop (s.db.deliver f (Select.byClient c)).scans [] with
    | error e => rfl
    | ok ps => cases (s.db.deliver f (Select.byClient c)).Err <;> rfl

theorem GetByClient_noFaults (s : ParcelStore) (c : Int) :
    (GetByClient s noFaults c).1 =
      (s.db.rows.filter (fun r => decide (r.Client = c)), none) := by
  have hs := scans_noFaults s.db (Select.byClient c)
  have hc : noFaults.call = none := rfl
  have he : (s.db.deliver noFaults (Select.byClient c)).Err = none := rfl
  simp only [GetByClient, DB.Query, hc, hs, he, scanLoop_map_ok, Select.rowsOf]
  simp

theorem GetByClient_ok (s : ParcelStore) (f : Faults) (c : Int) (ps : List Parcel)
    (h : (GetByClient s f c).1 = (ps, none)) :
    ps = s.db.rows.filter (fun r => decide (r.Client = c)) := by
  unfold GetByClient DB.Query at h
  cases hc : f.call with
  | some e => simp [hc] at h
  | none =>
    simp only [hc] at h
    cases hl : scanLoop (s.db.deliver f (Select.byClient c)).scans [] with
    | error e => simp [hl] at h
    | ok qs =>
      simp only [hl] at h
      cases he : (s.db.deliver f (Select.byClient c)).Err with
      | some e => simp [he] at h
      | none =>
        simp only [he, Prod.mk.injEq, and_true] at h
        subst h
        simp only [DB.deliver] at hl he
        cases hi : f.iter with
        | some ke => obtain ⟨k, e⟩ := ke; simp [hi] at he
        | none =>
          simp only [hi, List.enum] at hl
          simpa [Select.rowsOf] using scanLoop_ok f _ 0 [] _ hl

/-- The rows of one client after a run of `Add` calls: those before, then one for each
call of that client whose insert ran. -/
theorem addAll_filter (s : ParcelStore) (calls : List (Faults × Parcel)) (c : Int) :
    ((addAll s calls).2.db.rows.filter (fun r => decide (r.Client = c))).length =
      (s.db.rows.filter (fun r => decide (r.Client = c))).length +
        (calls.filter (fun fp => decide (fp.1.call = none ∧ fp.2.Client = c))).length := by
  induction calls generalizing s with
  | nil => simp [addAll]
  | cons fp rest ih =>
    obtain ⟨f, p⟩ := fp
    simp only [addAll]
    rw [ih]
    cases hc : f.call with
    | some e =>
      rw [Add_fail s f p e hc]
      simp [List.filter, hc]
    | none =>
      have hrows : (Add s f p).2.db.rows = s.db.rows ++
          [⟨nextNumber s.db.rows, p.Client, p.Status, p.Address, p.CreatedAt⟩] := by
        cases hid : f.lastInsertId with
        | some e => rw [Add_noId s f p e hc hid]
        | none => rw [Add_ok s f p hc hid]
      rw [hrows, List.filter_append]
      by_cases hp : p.Client = c
      · simp [List.filter, hc, hp]
        omega
      · simp [List.filter, hc, hp]

theorem addAll_success (s : ParcelStore) (calls : List (Faults × Parcel))
    (h : ∀ res ∈ (addAll s calls).1, res.2 = none) : ∀ fp ∈ calls, fp.1.call = none := by
  induction calls generalizing s with
  | nil => intro fp hfp; cases hfp
  | cons x rest ih =>
    obtain ⟨f, p⟩ := x
    simp only [addAll, List.mem_cons, forall_eq_or_imp] at h
    intro fp hfp
    rcases List.mem_cons.mp hfp with rfl | hfp
    · exact (Add_success s f p (Add s f p).1.1 (Prod.ext rfl h.1)).1
    · exact ih (Add s f p).2 h.2 fp hfp

end ParcelStore

/-- Claim C6: a `GetByClient c` that returns no error returns exactly the rows of the
table whose client is `c`, as stored and in storage order, each as often as the table
holds it and no row of another client; with a working driver it does return them, and an
empty list with no error when no row has client `c`; and after a run of `Add` calls that
all returned no error, the list is longer than before the run by the number of calls made
with client `c`, so that from an empty table its length is that number. -/
theorem getByClient_exact (s : ParcelStore) (c : Int) :
    (∀ (f : Faults) (ps : List Parcel), (s.GetByClient f c).1 = (ps, none) →
        ps = s.db.rows.filter (fun r => decide (r.Client = c)) ∧
          (∀ r, r ∈ ps ↔ r ∈ s.db.rows ∧ r.Client = c) ∧
          (∀ r, r.Client = c → ps.count r = s.db.rows.count r)) ∧
      (s.GetByClient noFaults c).1 =
        (s.db.rows.filter (fun r => decide (r.Client = c)), none) ∧
      ((∀ r ∈ s.db.rows, r.Client ≠ c) → (s.GetByClient noFaults c).1 = ([], none)) ∧
      (∀ calls : List (Faults × Parcel), (∀ res ∈ (s.addAll calls).1, res.2 = none) →
        (((s.addAll calls).2.GetByClient noFaults c).1.1.length =
            (s.GetByClient noFaults c).1.1.length +
              (calls.filter (fun fp => decide (fp.2.Client = c))).length) ∧
          (s.db.rows = [] → ((s.addAll calls).2.GetByClient noFaults c).1.1.length =
            (calls.filter (fun fp => decide (fp.2.Client = c))).length)) := by
  refine ⟨?_, ParcelStore.GetByClient_noFaults s c, ?_, ?_⟩
  · intro f ps h
    have hps := ParcelStore.GetByClient_ok s f c ps h
    subst hps
    refine ⟨rfl, ?_, ?_⟩
    · intro r
      simp [List.mem_filter]
    · intro r hr
      rw [List.count_filter]
      simpa using hr
  · intro h
    rw [ParcelStore.GetByClient_noFaults]
    have : s.db.rows.filter (fun r => decide (r.Client = c)) = [] := by
      rw [List.filter_eq_nil_iff]
      intro r hr
      simpa using h r hr
    rw [this]
  · intro calls h
    have hall := ParcelStore.addAll_success s calls h
    have hf : calls.filter (fun fp => decide (fp.1.call = none ∧ fp.2.Client = c)) =
        calls.filter (fun fp => decide (fp.2.Client = c)) := by
      apply List.filter_congr
      intro fp hfp
      simp [hall fp hfp]
    have hlen := ParcelStore.addAll_filter s calls c
    rw [hf] at hlen
    rw [ParcelStore.GetByClient_noFaults, ParcelStore.GetByClient_noFaults]
    refine ⟨hlen, ?_⟩
    intro he
    simp only [hlen, he]
    simp

theorem getByClient_exact_witness :
    ((ParcelStore.addAll ⟨⟨[], 0⟩⟩
        [(noFaults, ⟨0, 7, "registered", "a", "t"⟩), (noFaults, ⟨0, 8, "registered", "b", "t"⟩),
          (noFaults, ⟨0, 7, "registered", "c", "t"⟩)]).2.GetByClient noFaults 7).1.1.length =
      ([(noFaults, (⟨0, 7, "registered", "a", "t"⟩ : Parcel)),
          (noFaults, ⟨0, 8, "registered", "b", "t"⟩),
          (noFaults, ⟨0, 7, "registered", "c", "t"⟩)].filter
        (fun fp => decide (fp.2.Client = 7))).length :=
  ((getByClient_exact ⟨⟨[], 0⟩⟩ 7).2.2.2 _ (by decide)).2 rfl

/-! ## Writes that match no row -/

theorem map_withStatus_missing (rows : List Parcel) (n : Int) (st : String)
    (h : rows.find? (fun r => decide (r.Number = n)) = none) :
    rows.map (withStatus n st) = rows := by
  rw [List.find?_eq_none] at h
  conv_rhs => rw [← List.map_id rows]
  apply List.map_congr_left
  intro r hr
  have : r.Number ≠ n := by simpa using h r hr
  simp [withStatus, this]

theorem map_withAddress_missing (rows : List Parcel) (n : Int) (a : String)
    (h : rows.find? (fun r => decide (r.Number = n)) = none) :
    rows.map (withAddress n a) = rows := by
  rw [List.find?_eq_none] at h
  conv_rhs => rw [← List.map_id rows]
  apply List.map_congr_left
  intro r hr
  have : r.Number ≠ n := by simpa using h r hr
  simp [withAddress, this]

theorem filter_kept_missing (rows : List Parcel) (n : Int)
    (h : rows.find? (fun r => decide (r.Number = n)) = none) :
    rows.filter (kept n) = rows := by
  rw [List.find?_eq_none] at h
  rw [List.filter_eq_self]
  intro r hr
  have : r.Number ≠ n := by simpa using h r hr
  simp [kept, this]

/-- Claim C7: when no row carries the number `n` and the statement itself runs,
`SetStatus`, `SetAddress` and `Delete` each return no error and leave the rows of the
table exactly as they were; and `SetAddress` and `Delete` return that same nil on every
table and number, whether the row is missing, the guard failed or the write was
applied. -/
theorem write_missing_noop (s : ParcelStore) (f : Faults) (n : Int)
    (hf : f.call = none) (hm : s.db.lookup n = none) :
    (∀ st : String, (s.SetStatus f n st).1 = none ∧
        (s.SetStatus f n st).2.db.rows = s.db.rows) ∧
      (∀ a : String, (s.SetAddress f n a).1 = none ∧
        (s.SetAddress f n a).2.db.rows = s.db.rows) ∧
      ((s.Delete f n).1 = none ∧ (s.Delete f n).2.db.rows = s.db.rows) ∧
      (∀ (t : ParcelStore) (m : Int) (a : String),
        (t.SetAddress f m a).1 = none ∧ (t.Delete f m).1 = none) := by
  refine ⟨?_, ?_, ?_, ?_⟩
  · intro st
    rw [ParcelStore.SetStatus_ok s f n st hf]
    exact ⟨rfl, map_withStatus_missing s.db.rows n st hm⟩
  · intro a
    rw [ParcelStore.SetAddress_ok s f n a hf]
    exact ⟨rfl, map_withAddress_missing s.db.rows n a hm⟩
  · rw [ParcelStore.Delete_ok s f n hf]
    exact ⟨rfl, filter_kept_missing s.db.rows n hm⟩
  · intro t m a
    rw [ParcelStore.SetAddress_err, ParcelStore.Delete_err]
    exact ⟨hf, hf⟩

theorem write_missing_noop_witness :
    (ParcelStore.Delete ⟨⟨[⟨1, 1000, "registered", "test", "t"⟩], 0⟩⟩ noFaults 5).1 = none ∧
      (ParcelStore.Delete ⟨⟨[⟨1, 1000, "registered", "test", "t"⟩], 0⟩⟩ noFaults 5).2.db.rows =
        [⟨1, 1000, "registered", "test", "t"⟩] :=
  (write_missing_noop ⟨⟨[⟨1, 1000, "registered", "test", "t"⟩], 0⟩⟩ noFaults 5
    (by decide) (by decide)).2.2.1

/-! ## Failures of the database -/

namespace ParcelStore

theorem Add_calls (s : ParcelStore) (f : Faults) (p : Parcel) :
    (Add s f p).2.db.calls = s.db.calls + 1 := by
  cases hc : f.call with
  | some e => rw [Add_fail s f p e hc]
  | none =>
    cases hid : f.lastInsertId with
    | some e => rw [Add_noId s f p e hc hid]
    | none => rw [Add_ok s f p hc hid]

theorem SetStatus_calls (s : ParcelStore) (f : Faults) (n : Int) (st : String) :
    (SetStatus s f n st).2.db.calls = s.db.calls + 1 := by
  cases hc : f.call with
  | some e => rw [SetStatus_fail s f n st e hc]
  | none => rw [SetStatus_ok s f n st hc]

theorem SetAddress_calls (s : ParcelStore) (f : Faults) (n : Int) (a : String) :
    (SetAddress s f n a).2.db.calls = s.db.calls + 1 := by
  cases hc : f.call with
  | some e => rw [SetAddress_fail s f n a e hc]
  | none => rw [SetAddress_ok s f n a hc]

theorem Delete_calls (s : ParcelStore) (f : Faults) (n : Int) :
    (Delete s f n).2.db.calls = s.db.calls + 1 := by
  cases hc : f.call with
  | some e => rw [Delete_fail s f n e hc]
  | none => rw [Delete_ok s f n hc]

theorem scanLoop_error (pre : List Parcel) (e : GoError)
    (post : List (Except GoError Parcel)) (acc : List Parcel) :
    scanLoop (pre.map Except.ok ++ Except.error e :: post) acc = .error e := by
  induction pre generalizing acc with
  | nil => simp [scanLoop]
  | cons x rest ih => simp only [List.map_cons, List.cons_append, scanLoop]; exact ih _

end ParcelStore

/-- Claim C8: whatever call to the database fails with an error `e` (the `Exec` of a
writer, the `LastInsertId` after a successful insert, the `Scan` of `Get`, the `Query`, a
`Scan` or the final `Err` of `GetByClient`), the method returns `e` itself, except that
`Get` returns its not-found error in place of `sql.ErrNoRows`; the value returned with it
is the zero one (0, the empty parcel, the empty list), and every method makes exactly one
round trip, so a failed call is not tried again. -/
theorem db_error_propagates (s : ParcelStore) (f : Faults) (e : GoError) :
    (∀ p : Parcel,
        (s.db.Exec f (Stmt.insertParcel p.Client p.Status p.Address p.CreatedAt)).1 = .error e →
        (s.Add f p).1 = (0, some e)) ∧
      (∀ (p : Parcel) (res : Result),
        (s.db.Exec f (Stmt.insertParcel p.Client p.Status p.Address p.CreatedAt)).1 = .ok res →
        res.LastInsertId.2 = some e → (s.Add f p).1 = (0, some e)) ∧
      (∀ n : Int, (s.db.QueryRow f (Select.byNumber n)).1.Scan = .error e →
        (s.Get f n).1 =
          (Parcel.zero, some (if e = GoError.ErrNoRows then ParcelStore.notFound else e))) ∧
      (∀ c : Int, (s.db.Query f (Select.byClient c)).1 = .error e →
        (s.GetByClient f c).1 = ([], some e)) ∧
      (∀ (c : Int) (rows : Rows) (pre : List Parcel) (post : List (Except GoError Parcel)),
        (s.db.Query f (Select.byClient c)).1 = .ok rows →
        rows.scans = pre.map Except.ok ++ Except.error e :: post →
        (s.GetByClient f c).1 = ([], some e)) ∧
      (∀ (c : Int) (rows : Rows) (ps : List Parcel),
        (s.db.Query f (Select.byClient c)).1 = .ok rows →
        rows.scans = ps.map Except.ok → rows.Err = some e →
        (s.GetByClient f c).1 = ([], some e)) ∧
      (∀ (n : Int) (st : String), (s.db.Exec f (Stmt.updateStatus st n)).1 = .error e →
        (s.SetStatus f n st).1 = some e) ∧
      (∀ (n : Int) (a : String), (s.db.Exec f (Stmt.updateAddress a n)).1 = .error e →
        (s.SetAddress f n a).1 = some e) ∧
      (∀ n : Int, (s.db.Exec f (Stmt.deleteParcel n)).1 = .error e →
        (s.Delete f n).1 = some e) ∧
      (∀ (p : Parcel) (n : Int) (st a : String),
        (s.Add f p).2.db.calls = s.db.calls + 1 ∧ (s.Get f n).2.db.calls = s.db.calls + 1 ∧
        (s.GetByClient f n).2.db.calls = s.db.calls + 1 ∧
        (s.SetStatus f n st).2.db.calls = s.db.calls + 1 ∧
        (s.SetAddress f n a).2.db.calls = s.db.calls + 1 ∧
        (s.Delete f n).2.db.calls = s.db.calls + 1) := by
  refine ⟨?_, ?_, ?_, ?_, ?_, ?_, ?_, ?_, ?_, ?_⟩
  · intro p h
    unfold ParcelStore.Add
    rcases hx : s.db.Exec f (Stmt.insertParcel p.Client p.Status p.Address p.CreatedAt)
      with ⟨resp, db⟩
    rw [hx] at h
    simp only at h
    subst h
    rfl
  · intro p res h hid
    unfold ParcelStore.Add
    rcases hx : s.db.Exec f (Stmt.insertParcel p.Client p.Status p.Address p.CreatedAt)
      with ⟨resp, db⟩
    rw [hx] at h
    simp only at h
    subst h
    obtain ⟨⟨id, err⟩, affected⟩ := res
    simp only at hid
    subst hid
    rfl
  · intro n h
    unfold ParcelStore.Get
    simp only [h]
    split <;> rfl
  · intro c h
    unfold ParcelStore.GetByClient
    rcases hx : s.db.Query f (Select.byClient c) with ⟨resp, db⟩
    rw [hx] at h
    simp only at h
    subst h
    rfl
  · intro c rows pre post h hs
    unfold ParcelStore.GetByClient
    rcases hx : s.db.Query f (Select.byClient c) with ⟨resp, db⟩
    rw [hx] at h
    simp only at h
    subst h
    simp only [hs, ParcelStore.scanLoop_error]
  · intro c rows ps h hs he
    unfold ParcelStore.GetByClient
    rcases hx : s.db.Query f (Select.byClient c) with ⟨resp, db⟩
    rw [hx] at h
    simp only at h
    subst h
    simp only [hs, scanLoop_map_ok, he]
  · intro n st h
    unfold ParcelStore.SetStatus
    rcases hx : s.db.Exec f (Stmt.updateStatus st n) with ⟨resp, db⟩
    rw [hx] at h
    simp only at h
    subst h
    rfl
  · intro n a h
    unfold ParcelStore.SetAddress
    rcases hx : s.db.Exec f (Stmt.updateAddress a n) with ⟨resp, db⟩
    rw [hx] at h
    simp only at h
    subst h
    rfl
  · intro n h
    unfold ParcelStore.Delete
    rcases hx : s.db.Exec f (Stmt.deleteParcel n) with ⟨resp, db⟩
    rw [hx] at h
    simp only at h
    subst h
    rfl
  · intro p n st a
    refine ⟨ParcelStore.Add_calls s f p, ?_, ?_, ParcelStore.SetStatus_calls s f n st,
      ParcelStore.SetAddress_calls s f n a, ParcelStore.Delete_calls s f n⟩
    · rw [ParcelStore.Get_rows]
    · rw [ParcelStore.GetByClient_rows]

theorem db_error_propagates_witness :
    (ParcelStore.Add ⟨⟨[⟨1, 1000, "registered", "test", "t"⟩], 0⟩⟩
        ⟨some (GoError.driver 5 "database is locked"), none, fun _ => none, none⟩
        ⟨0, 7, "registered", "a", "t"⟩).1 =
        (0, some (GoError.driver 5 "database is locked")) ∧
      (ParcelStore.Add ⟨⟨[⟨1, 1000, "registered", "test", "t"⟩], 0⟩⟩
        ⟨none, some (GoError.New "LastInsertId is not supported by this driver"),
          fun _ => none, none⟩ ⟨0, 7, "registered", "a", "t"⟩).1 =
        (0, some (GoError.New "LastInsertId is not supported by this driver")) ∧
      (ParcelStore.GetByClient ⟨⟨[⟨1, 1000, "registered", "test", "t"⟩], 0⟩⟩
        ⟨none, none, fun _ => none, some (1, GoError.driver 5 "database is locked")⟩ 1000).1 =
        ([], some (GoError.driver 5 "database is locked")) :=
  ⟨(db_error_propagates _ _ _).1 _ rfl,
   (db_error_propagates _ _ _).2.1 _
     ⟨(0, some (GoError.New "LastInsertId is not supported by this driver")), 1⟩ rfl rfl,
   (db_error_propagates _ _ _).2.2.2.2.2.1 1000
     ⟨[Except.ok ⟨1, 1000, "registered", "test", "t"⟩],
       some (GoError.driver 5 "database is locked")⟩
     [⟨1, 1000, "registered", "test", "t"⟩] rfl rfl rfl⟩

/-! ## The primary key and the columns no statement assigns -/

theorem map_number_withStatus (rows : List Parcel) (n : Int) (st : String) :
    (rows.map (withStatus n st)).map Parcel.Number = rows.map Parcel.Number := by
  rw [List.map_map]
  apply List.map_congr_left
  intro r _
  exact withStatus_number n st r

theorem map_number_withAddress (rows : List Parcel) (n : Int) (a : String) :
    (rows.map (withAddress n a)).map Parcel.Number = rows.map Parcel.Number := by
  rw [List.map_map]
  apply List.map_congr_left
  intro r _
  exact withAddress_number n a r

theorem keyed_append_new (rows : List Parcel) (x : Parcel) (hk : Keyed rows)
    (h : ∀ r ∈ rows, r.Number ≠ x.Number) : Keyed (rows ++ [x]) := by
  unfold Keyed at hk ⊢
  rw [List.map_append, List.nodup_append]
  refine ⟨hk, by simp, ?_⟩
  intro k hk1 hk2
  obtain ⟨r, hr, rfl⟩ := List.mem_map.mp hk1
  simp only [List.map_cons, List.map_nil, List.mem_singleton] at hk2
  exact h r hr hk2

theorem keyed_filter (rows : List Parcel) (p : Parcel → Bool) (hk : Keyed rows) :
    Keyed (rows.filter p) :=
  List.Nodup.sublist ((List.filter_sublist rows).map Parcel.Number) hk

namespace ParcelStore

/-- The rows after `Add`: those before, and behind them the new row if the insert ran. -/
theorem Add_rows (s : ParcelStore) (f : Faults) (p : Parcel) :
    (Add s f p).2.db.rows = s.db.rows ∨
      (Add s f p).2.db.rows = s.db.rows ++
        [⟨nextNumber s.db.rows, p.Client, p.Status, p.Address, p.CreatedAt⟩] := by
  cases hc : f.call with
  | some e => left; rw [Add_fail s f p e hc]
  | none =>
    right
    cases hid : f.lastInsertId with
    | some e => rw [Add_noId s f p e hc hid]
    | none => rw [Add_ok s f p hc hid]

theorem SetStatus_rows (s : ParcelStore) (f : Faults) (n : Int) (st : String) :
    (SetStatus s f n st).2.db.rows = s.db.rows ∨
      (SetStatus s f n st).2.db.rows = s.db.rows.map (withStatus n st) := by
  cases hc : f.call with
  | some e => left; rw [SetStatus_fail s f n st e hc]
  | none => right; rw [SetStatus_ok s f n st hc]

theorem SetAddress_rows (s : ParcelStore) (f : Faults) (n : Int) (a : String) :
    (SetAddress s f n a).2.db.rows = s.db.rows ∨
      (SetAddress s f n a).2.db.rows = s.db.rows.map (withAddress n a) := by
  cases hc : f.call with
  | some e => left; rw [SetAddress_fail s f n a e hc]
  | none => right; rw [SetAddress_ok s f n a hc]

theorem Delete_rows (s : ParcelStore) (f : Faults) (n : Int) :
    (Delete s f n).2.db.rows = s.db.rows ∨
      (Delete s f n).2.db.rows = s.db.rows.filter (kept n) := by
  cases hc : f.call with
  | some e => left; rw [Delete_fail s f n e hc]
  | none => right; rw [Delete_ok s f n hc]

end ParcelStore

/-- Claim C9: under any driver behaviour, if no two rows share a number before `Add`,
`SetStatus`, `SetAddress` or `Delete`, none do after it; the number a successful `Add`
returns is carried by no row that existed before the call; `SetStatus` and `SetAddress`
leave number, client and creation time of every row, position by position, as they
were; `Delete` only removes rows and `Add` only appends one; `Get` and `GetByClient`
leave all rows as they were. -/
theorem keyed_preserved (s : ParcelStore) (f : Faults) :
    (Keyed s.db.rows →
        (∀ p : Parcel, Keyed (s.Add f p).2.db.rows) ∧
        (∀ (n : Int) (st : String), Keyed (s.SetStatus f n st).2.db.rows) ∧
        (∀ (n : Int) (a : String), Keyed (s.SetAddress f n a).2.db.rows) ∧
        (∀ n : Int, Keyed (s.Delete f n).2.db.rows)) ∧
      (∀ (p : Parcel) (n : Int), (s.Add f p).1 = (n, none) →
        ∀ r ∈ s.db.rows, r.Number ≠ n) ∧
      (∀ (n : Int) (st : String),
        (s.SetStatus f n st).2.db.rows.map Parcel.fixed = s.db.rows.map Parcel.fixed) ∧
      (∀ (n : Int) (a : String),
        (s.SetAddress f n a).2.db.rows.map Parcel.fixed = s.db.rows.map Parcel.fixed) ∧
      (∀ n : Int, List.Sublist (s.Delete f n).2.db.rows s.db.rows) ∧
      (∀ p : Parcel, ∃ t, (s.Add f p).2.db.rows = s.db.rows ++ t ∧ t.length ≤ 1) ∧
      (∀ n : Int, (s.Get f n).2.db.rows = s.db.rows ∧
        (s.GetByClient f n).2.db.rows = s.db.rows) := by
  refine ⟨?_, ?_, ?_, ?_, ?_, ?_, ?_⟩
  · intro hk
    refine ⟨?_, ?_, ?_, ?_⟩
    · intro p
      rcases ParcelStore.Add_rows s f p with h | h
      · rw [h]; exact hk
      · rw [h]
        exact keyed_append_new s.db.rows _ hk
          (fun r hr => ne_of_lt (lt_nextNumber s.db.rows r hr))
    · intro n st
      rcases ParcelStore.SetStatus_rows s f n st with h | h
      · rw [h]; exact hk
      · rw [h]; unfold Keyed; rw [map_number_withStatus]; exact hk
    · intro n a
      rcases ParcelStore.SetAddress_rows s f n a with h | h
      · rw [h]; exact hk
      · rw [h]; unfold Keyed; rw [map_number_withAddress]; exact hk
    · intro n
      rcases ParcelStore.Delete_rows s f n with h | h
      · rw [h]; exact hk
      · rw [h]; exact keyed_filter s.db.rows (kept n) hk
  · intro p n h r hr
    obtain ⟨hc, hid⟩ := ParcelStore.Add_success s f p n h
    rw [ParcelStore.Add_ok s f p hc hid] at h
    simp only [Prod.mk.injEq, and_true] at h
    subst h
    exact ne_of_lt (lt_nextNumber s.db.rows r hr)
  · intro n st
    rcases ParcelStore.SetStatus_rows s f n st with h | h
    · rw [h]
    · rw [h, List.map_map]
      apply List.map_congr_left
      intro r _
      exact withStatus_fixed n st r
  · intro n a
    rcases ParcelStore.SetAddress_rows s f n a with h | h
    · rw [h]
    · rw [h, List.map_map]
      apply List.map_congr_left
      intro r _
      exact withAddress_fixed n a r
  · intro n
    rcases ParcelStore.Delete_rows s f n with h | h
    · rw [h]
    · rw [h]; exact List.filter_sublist s.db.rows
  · intro p
    rcases ParcelStore.Add_rows s f p with h | h
    · exact ⟨[], by rw [h]; simp, by simp⟩
    · exact ⟨_, h, by simp⟩
  · intro n
    rw [ParcelStore.Get_rows, ParcelStore.GetByClient_rows]
    exact ⟨rfl, rfl⟩

theorem keyed_preserved_witness :
    Keyed (ParcelStore.Add ⟨⟨[⟨1, 7, "sent", "a", "t"⟩, ⟨4, 8, "registered", "b", "t"⟩], 0⟩⟩
      noFaults ⟨0, 7, "registered", "c", "t"⟩).2.db.rows ∧
      Parcel.Number ⟨4, 8, "registered", "b", "t"⟩ ≠ 5 :=
  ⟨((keyed_preserved ⟨⟨[⟨1, 7, "sent", "a", "t"⟩, ⟨4, 8, "registered", "b", "t"⟩], 0⟩⟩
      noFaults).1 (by decide)).1 ⟨0, 7, "registered", "c", "t"⟩,
   (keyed_preserved ⟨⟨[⟨1, 7, "sent", "a", "t"⟩, ⟨4, 8, "registered", "b", "t"⟩], 0⟩⟩
      noFaults).2.1 ⟨0, 7, "registered", "c", "t"⟩ 5 (by decide)
      ⟨4, 8, "registered", "b", "t"⟩ (by decide)⟩

/-! ## Frame -/

theorem filter_number_withStatus (rows : List Parcel) (n m : Int) (st : String)
    (h : n ≠ m) :
    (rows.map (withStatus n st)).filter (fun r => decide (r.Number = m)) =
      rows.filter (fun r => decide (r.Number = m)) := by
  induction rows with
  | nil => rfl
  | cons x rest ih =>
    by_cases hx : x.Number = m
    · have hxn : x.Number ≠ n := fun hn => h (hn.symm.trans hx)
      simp [List.filter, withStatus, hx, hxn, h.symm, ih]
    · have hx2 : (withStatus n st x).Number ≠ m := by rw [withStatus_number]; exact hx
      simp only [List.map_cons, List.filter, hx, hx2, decide_False]
      exact ih

theorem filter_number_withAddress (rows : List Parcel) (n m : Int) (a : String)
    (h : n ≠ m) :
    (rows.map (withAddress n a)).filter (fun r => decide (r.Number = m)) =
      rows.filter (fun r => decide (r.Number = m)) := by
  induction rows with
  | nil => rfl
  | cons x rest ih =>
    by_cases hx : x.Number = m
    · have hxn : x.Number ≠ n := fun hn => h (hn.symm.trans hx)
      simp [List.filter, withAddress, hx, hxn, h.symm, ih]
    · have hx2 : (withAddress n a x).Number ≠ m := by rw [withAddress_number]; exact hx
      simp only [List.map_cons, List.filter, hx, hx2, decide_False]
      exact ih

theorem filter_number_kept (rows : List Parcel) (n m : Int) (h : n ≠ m) :
    (rows.filter (kept n)).filter (fun r => decide (r.Number = m)) =
      rows.filter (fun r => decide (r.Number = m)) := by
  rw [List.filter_filter]
  apply List.filter_congr
  intro x _
  by_cases hx : x.Number = m
  · have hxn : x.Number ≠ n := fun hn => h (hn.symm.trans hx)
    simp [kept, hx, hxn, h.symm]
  · simp [hx]

theorem filter_number_append (rows : List Parcel) (x : Parcel) (m : Int)
    (h : x.Number ≠ m) :
    (rows ++ [x]).filter (fun r => decide (r.Number = m)) =
      rows.filter (fun r => decide (r.Number = m)) := by
  simp [List.filter_append, List.filter, h]

namespace ParcelStore

/-- What `Get` returns depends on the state only through the rows carrying the number. -/
theorem Get_congr (s t : ParcelStore) (g : Faults) (m : Int)
    (h : t.db.rows.filter (fun r => decide (r.Number = m)) =
      s.db.rows.filter (fun r => decide (r.Number = m))) :
    (Get t g m).1 = (Get s g m).1 := by
  have hd : t.db.deliver g (Select.byNumber m) = s.db.deliver g (Select.byNumber m) := by
    simp only [DB.deliver, Select.rowsOf, h]
  unfold Get DB.QueryRow
  cases hc : g.call with
  | some e => simp only [Row.Scan]; split <;> rfl
  | none =>
    simp only [hd]
    cases (Row.mk none (s.db.deliver g (Select.byNumber m))).Scan with
    | error e => simp only; split <;> rfl
    | ok q => rfl

end ParcelStore

/-- Claim C10: for distinct numbers `n` and `m` and any driver behaviour, `SetStatus n`,
`SetAddress n` and `Delete n` leave what `Get m` returns as it was, and so does `Add` for
every `m` other than the number it assigns (in particular other than the number a
successful `Add` returns), every row that existed staying the first of its number;
`SetStatus n` changes at most the status of row `n` and `SetAddress n` at most its
address; `Get` and `GetByClient` change no row. -/
theorem writes_frame (s : ParcelStore) (f g : Faults) (n m : Int) (h : n ≠ m) :
    (∀ st : String, ((s.SetStatus f n st).2.Get g m).1 = (s.Get g m).1) ∧
      (∀ a : String, ((s.SetAddress f n a).2.Get g m).1 = (s.Get g m).1) ∧
      ((s.Delete f n).2.Get g m).1 = (s.Get g m).1 ∧
      (∀ p : Parcel, nextNumber s.db.rows ≠ m → ((s.Add f p).2.Get g m).1 = (s.Get g m).1) ∧
      (∀ p : Parcel, (s.Add f p).1 = (n, none) → ((s.Add f p).2.Get g m).1 = (s.Get g m).1) ∧
      (∀ (p r : Parcel) (k : Int), s.db.lookup k = some r →
        (s.Add f p).2.db.lookup k = some r ∧ ((s.Add f p).2.Get g k).1 = (s.Get g k).1) ∧
      (∀ (st : String) (r : Parcel), s.db.lookup n = some r →
        ∃ st2, (s.SetStatus f n st).2.db.lookup n = some { r with Status := st2 }) ∧
      (∀ (a : String) (r : Parcel), s.db.lookup n = some r →
        ∃ a2, (s.SetAddress f n a).2.db.lookup n = some { r with Address := a2 }) ∧
      (s.Get f n).2.db.rows = s.db.rows ∧ (s.GetByClient f n).2.db.rows = s.db.rows := by
  have hadd : ∀ p : Parcel, nextNumber s.db.rows ≠ m →
      ((s.Add f p).2.Get g m).1 = (s.Get g m).1 := by
    intro p hm
    apply ParcelStore.Get_congr
    rcases ParcelStore.Add_rows s f p with hr | hr
    · rw [hr]
    · rw [hr]; exact filter_number_append s.db.rows _ m hm
  refine ⟨?_, ?_, ?_, hadd, ?_, ?_, ?_, ?_, ?_, ?_⟩
  · intro st
    apply ParcelStore.Get_congr
    rcases ParcelStore.SetStatus_rows s f n st with hr | hr
    · rw [hr]
    · rw [hr]; exact filter_number_withStatus s.db.rows n m st h
  · intro a
    apply ParcelStore.Get_congr
    rcases ParcelStore.SetAddress_rows s f n a with hr | hr
    · rw [hr]
    · rw [hr]; exact filter_number_withAddress s.db.rows n m a h
  · apply ParcelStore.Get_congr
    rcases ParcelStore.Delete_rows s f n with hr | hr
    · rw [hr]
    · rw [hr]; exact filter_number_kept s.db.rows n m h
  · intro p hp
    obtain ⟨hc, hid⟩ := ParcelStore.Add_success s f p n hp
    rw [ParcelStore.Add_ok s f p hc hid] at hp
    simp only [Prod.mk.injEq, and_true] at hp
    exact hadd p (by rw [hp]; exact h)
  · intro p r k hl
    have hk : r.Number = k := (find_number s.db.rows k r hl).2
    have hmem : r ∈ s.db.rows := (find_number s.db.rows k r hl).1
    have hne : nextNumber s.db.rows ≠ k := by
      have := lt_nextNumber s.db.rows r hmem
      omega
    refine ⟨?_, ?_⟩
    · unfold DB.lookup
      rcases ParcelStore.Add_rows s f p with hr | hr
      · rw [hr]; exact hl
      · rw [hr, find_append_fresh s.db.rows _ k hne]
        exact hl
    · apply ParcelStore.Get_congr
      rcases ParcelStore.Add_rows s f p with hr | hr
      · rw [hr]
      · rw [hr]; exact filter_number_append s.db.rows _ k hne
  · intro st r hl
    have hn : r.Number = n := (find_number s.db.rows n r hl).2
    unfold DB.lookup
    rcases ParcelStore.SetStatus_rows s f n st with hr | hr
    · exact ⟨r.Status, by rw [hr]; exact hl⟩
    · refine ⟨st, ?_⟩
      rw [hr, find_map_withStatus]
      unfold DB.lookup at hl
      rw [hl, Option.map_some', withStatus_same n st r hn]
  · intro a r hl
    have hn : r.Number = n := (find_number s.db.rows n r hl).2
    unfold DB.lookup
    rcases ParcelStore.SetAddress_rows s f n a with hr | hr
    · exact ⟨r.Address, by rw [hr]; exact hl⟩
    · rw [hr, find_map_withAddress]
      unfold DB.lookup at hl
      rw [hl, Option.map_some']
      by_cases hs : r.Status = ParcelStatusRegistered
      · exact ⟨a, by rw [withAddress_registered n a r hn hs]⟩
      · exact ⟨r.Address, by rw [withAddress_other n a r hs]⟩
  · rw [ParcelStore.Get_rows]
  · rw [ParcelStore.GetByClient_rows]

theorem writes_frame_witness :
    ((ParcelStore.Delete ⟨⟨[⟨1, 7, "registered", "a", "t"⟩, ⟨2, 8, "sent", "b", "t"⟩], 0⟩⟩
        noFaults 1).2.Get noFaults 2).1 =
      (ParcelStore.Get ⟨⟨[⟨1, 7, "registered", "a", "t"⟩, ⟨2, 8, "sent", "b", "t"⟩], 0⟩⟩
        noFaults 2).1 :=
  (writes_frame ⟨⟨[⟨1, 7, "registered", "a", "t"⟩, ⟨2, 8, "sent", "b", "t"⟩], 0⟩⟩ noFaults noFaults
    1 2 (by decide)).2.2.1
